import Mathlib

/-!
Verification of the duplicate-detection and partition-management core of the
Knowledge-Jibber-Jabber repository.

The development shallowly embeds, in order:
* the text-normalization / hashing / matching primitives and the
  `DuplicateDetector` class of `doc_research_gpt/duplicate_detector.py`;
* the grouping, ranking and statistics logic of
  `repo/multi_sheet_system/advanced_duplicate_detector.py`;
* the capacity-aware batch append of
  `repo/multi_sheet_system/multi_sheet_manager.py` together with the
  row-counting helpers of `doc_research_gpt/sheets_utils.py`;
* the registry bookkeeping of
  `repo/multi_sheet_system/auto_scaling_sheets.py`.

External collaborators (the Google Sheets backend, hashlib, fuzzywuzzy) are
modelled by pure stand-ins that preserve exactly the behaviour the embedded
code observes: writes are driven by an explicit success oracle, the md5
digest is an injective tagging (digest equality coincides with input
equality, collisions being outside the model), and fuzz.ratio is the
Levenshtein-based similarity that fuzzywuzzy computes.
-/

namespace KJJ

/-! ## Python string primitives -/

/-- Python whitespace characters recognised by str.strip and the regex
class backslash-s (space, tab, newline, carriage return, vertical tab,
form feed). -/
def pyIsSpace (c : Char) : Bool :=
  c = ' ' || c = '\t' || c = '\n' || c = '\r' || c = '\x0b' || c = '\x0c'

/-- Python str.strip: drop leading and trailing whitespace. -/
def pyStrip (s : String) : String :=
  ⟨((s.data.dropWhile pyIsSpace).reverse.dropWhile pyIsSpace).reverse⟩

/-- Collapse runs of spaces to a single space (the effect of the
re.sub backslash-s-plus to single space after all whitespace has been
mapped to a plain space). -/
def squeezeSpaces : List Char → List Char
  | [] => []
  | [c] => [c]
  | a :: b :: rest =>
    if a = ' ' && b = ' ' then squeezeSpaces (b :: rest)
    else a :: squeezeSpaces (b :: rest)

/-- Python word character (regex backslash-w) over the ASCII range the
repository data uses. -/
def pyIsWordChar (c : Char) : Bool := c.isAlphanum || c = '_'

/-- normalize_text (duplicate_detector.py lines 44-58): strip, lower-case,
collapse whitespace runs to a single space, drop characters that are
neither word characters nor whitespace. -/
def normalize_text (text : String) : String :=
  let t := (pyStrip text).data.map Char.toLower
  let t := t.map (fun c => if pyIsSpace c then ' ' else c)
  let t := squeezeSpaces t
  ⟨t.filter (fun c => pyIsWordChar c || c = ' ')⟩

/-- Python str.startswith. -/
def pyStartsWith (s pre : String) : Bool := pre.data.isPrefixOf s.data

/-! ## Rows

A sheet row / record is an association list from field names to cell values,
preserving key order exactly as a Python dict does.  A key that is absent
models a missing column or a NaN cell; the Python code always guards field
access with `field in row and row[field]` followed by normalize_text, and a
NaN value normalizes to the empty string, so absence and emptiness flow
through the embedded code identically to the source. -/

abbrev Row := List (String × String)

/-- First binding of a field, as Python dict lookup (dict keys are unique;
for the embedding the first occurrence is authoritative). -/
def rowGet (r : Row) (f : String) : Option String :=
  (r.find? (fun p => p.1 == f)).map (fun p => p.2)

/-- Value of a field, with missing or NaN read as the empty string. -/
def fieldVal (r : Row) (f : String) : String := (rowGet r f).getD ""

/-- Python dict assignment: replace the first binding of the key, or append
a new binding at the end when the key is absent. -/
def rowSet (r : Row) (f v : String) : Row :=
  match r with
  | [] => [(f, v)]
  | (k, w) :: rest => if k = f then (k, v) :: rest else (k, w) :: rowSet rest f v

/-! ## Configuration constants (repo/multi_sheet_system/config.py)

The boolean feature flags ENABLE_FUZZY_TITLE_MATCHING, ENABLE_CONTENT_HASH
and ADD_DUPLICATE_MARKER are all True in config.py and are inlined as such
in the embedded branches below. -/

def DUPLICATE_CHECK_FIELDS : List String := ["Document ID", "Source URL"]

def CONTENT_FIELDS_FOR_HASH : List String := ["Summary", "Tags"]

def FUZZY_MATCH_THRESHOLD : Nat := 85

def TITLE_SIMILARITY_THRESHOLD : Nat := 80

def DUPLICATE_MARKER_PREFIX : String := "DUPLICATE_"

/-! ## Lexicographic string order

Python compares strings lexicographically by code point; sorted() is an
ascending stable sort.  The comparison is spelt out over character lists so
that concrete evaluations reduce in the kernel. -/

def lexLeb : List Char → List Char → Bool
  | [], _ => true
  | _ :: _, [] => false
  | a :: as, b :: bs => if a < b then true else if b < a then false else lexLeb as bs

/-- Python string less-or-equal. -/
def pyStrLe (a b : String) : Prop := lexLeb a.data b.data = true

instance : DecidableRel pyStrLe :=
  fun a b => instDecidableEqBool (lexLeb a.data b.data) true

theorem lexLeb_total : ∀ a b : List Char, lexLeb a b = true ∨ lexLeb b a = true
  | [], _ => Or.inl rfl
  | _ :: _, [] => Or.inr rfl
  | a :: as, b :: bs => by
    by_cases h1 : a < b
    · exact Or.inl (by simp [lexLeb, h1])
    · by_cases h2 : b < a
      · exact Or.inr (by simp [lexLeb, h2])
      · have he : a = b := le_antisymm (not_lt.mp h2) (not_lt.mp h1)
        subst he
        rcases lexLeb_total as bs with h | h
        · exact Or.inl (by simp [lexLeb, h])
        · exact Or.inr (by simp [lexLeb, h])

theorem lexLeb_antisymm : ∀ a b : List Char,
    lexLeb a b = true → lexLeb b a = true → a = b
  | [], [], _, _ => rfl
  | [], _ :: _, _, h2 => by simp [lexLeb] at h2
  | _ :: _, [], h1, _ => by simp [lexLeb] at h1
  | a :: as, b :: bs, h1, h2 => by
    by_cases hab : a < b
    · simp [lexLeb, hab, lt_asymm hab] at h2
    · by_cases hba : b < a
      · simp [lexLeb, hab, hba] at h1
      · have he : a = b := le_antisymm (not_lt.mp hba) (not_lt.mp hab)
        subst he
        simp only [lexLeb, lt_irrefl, if_false] at h1 h2
        exact congrArg (a :: ·) (lexLeb_antisymm as bs h1 h2)

theorem lexLeb_trans : ∀ a b c : List Char,
    lexLeb a b = true → lexLeb b c = true → lexLeb a c = true
  | [], _, _, _, _ => rfl
  | _ :: _, [], _, h1, _ => by simp [lexLeb] at h1
  | _ :: _, _ :: _, [], _, h2 => by simp [lexLeb] at h2
  | a :: as, b :: bs, c :: cs, h1, h2 => by
    by_cases hab : a < b
    · by_cases hbc : b < c
      · simp [lexLeb, lt_trans hab hbc]
      · by_cases hcb : c < b
        · simp [lexLeb, hbc, hcb] at h2
        · have : b = c := le_antisymm (not_lt.mp hcb) (not_lt.mp hbc)
          subst this
          simp [lexLeb, hab]
    · by_cases hba : b < a
      · simp [lexLeb, hab, hba] at h1
      · have : a = b := le_antisymm (not_lt.mp hba) (not_lt.mp hab)
        subst this
        simp only [lexLeb, lt_irrefl, if_false] at h1
        by_cases hbc : a < c
        · simp [lexLeb, hbc]
        · by_cases hcb : c < a
          · simp [lexLeb, hbc, hcb] at h2
          · have : a = c := le_antisymm (not_lt.mp hcb) (not_lt.mp hbc)
            subst this
            simp only [lexLeb, lt_irrefl, if_false] at h2 ⊢
            exact lexLeb_trans as bs cs h1 h2

instance : IsTotal String pyStrLe := ⟨fun a b => lexLeb_total a.data b.data⟩

instance : IsTrans String pyStrLe := ⟨fun a b c => lexLeb_trans a.data b.data c.data⟩

instance : IsAntisymm String pyStrLe :=
  ⟨fun a b h1 h2 => by
    cases a; cases b
    exact congrArg String.mk (lexLeb_antisymm _ _ h1 h2)⟩

/-! ## External digests and similarity -/

/-- Model of hashlib.md5 hexdigest.  Only equality of digests is ever
observed by the embedded code, so the digest is modelled as an injective
tagging of the input; real-world md5 collisions are outside the model. -/
def md5Hex (s : String) : String := "md5-" ++ s

/-- Indel edit distance between character lists, computed with an explicit
fuel argument so that the definition is structurally recursive and
kernel-evaluable; the fuel is always sufficient at the call site.  This is
the distance underlying the python-Levenshtein ratio used by fuzz.ratio
(substitutions cost 2, which makes the ratio distance a pure
insert-delete distance). -/
def indelDistFuel : Nat → List Char → List Char → Nat
  | _, [], ys => ys.length
  | _, xs, [] => xs.length
  | 0, xs, ys => xs.length + ys.length
  | fuel + 1, x :: xs, y :: ys =>
    if x = y then indelDistFuel fuel xs ys
    else 1 + min (indelDistFuel fuel xs (y :: ys)) (indelDistFuel fuel (x :: xs) ys)

def indelDist (a b : List Char) : Nat := indelDistFuel (a.length + b.length) a b

/-- Model of fuzzywuzzy fuzz.ratio: 100 * (lensum - dist) / lensum rounded
to the nearest integer, and 100 when both strings are empty. -/
def fuzzScore (a b : String) : Nat :=
  let lensum := a.data.length + b.data.length
  if lensum = 0 then 100
  else (200 * (lensum - indelDist a.data b.data) + lensum) / (2 * lensum)

/-! ## DuplicateDetector (doc_research_gpt/duplicate_detector.py) -/

/-- Constructor state of DuplicateDetector: the configurable key fields and
fuzzy threshold (lines 30-42); the defaults come from config.py. -/
structure DetectorCfg where
  check_fields : List String
  threshold : Nat
deriving DecidableEq

def defaultCfg : DetectorCfg :=
  { check_fields := DUPLICATE_CHECK_FIELDS, threshold := FUZZY_MATCH_THRESHOLD }

/-- The field-extraction step of generate_content_hash (lines 66-71): the
normalized value of a present, truthy field, none when nothing non-empty
remains. -/
def contentPart (row_data : Row) (f : String) : Option String :=
  let n := normalize_text (fieldVal row_data f)
  if n = "" then none else some n

/-- generate_content_hash (lines 60-78): normalized values of the given
fields, sorted, joined with a fixed separator and digested; none when no
field produced non-empty content.  Python sorted is an ascending stable
sort; on strings ties are identical elements, so insertionSort models it
exactly. -/
def generate_content_hash (row_data : Row) (fields : List String) : Option String :=
  let content_parts := fields.filterMap (contentPart row_data)
  if content_parts = [] then none
  else some (md5Hex (String.intercalate "|"
    (List.insertionSort pyStrLe content_parts)))

/-- generate_record_key (lines 80-90). -/
def generate_record_key (check_fields : List String) (row_data : Row) : Option String :=
  let key_parts := check_fields.filterMap (fun f =>
    let n := normalize_text (fieldVal row_data f)
    if n = "" then none else some (f ++ ":" ++ n))
  if key_parts = [] then none else some (String.intercalate "|" key_parts)

/-- Result record of one match strategy (the match_info dicts built at
lines 101-107, 135-141, 179-185, 201-207).  The human-readable
match_details text is reproduced up to quote characters. -/
structure MatchInfo where
  match_type : String
  match_score : Nat
  matched_row_index : Nat
  matched_fields : List String
  match_details : String
deriving DecidableEq

/-- exact_match (lines 92-109): first corpus row whose record key equals the
new record key. -/
def exact_match (cfg : DetectorCfg) (new_row : Row) (existing : List Row) :
    Bool × Option MatchInfo :=
  match generate_record_key cfg.check_fields new_row with
  | none => (false, none)
  | some new_key =>
    match existing.enum.find?
        (fun p => generate_record_key cfg.check_fields p.2 == some new_key) with
    | none => (false, none)
    | some p => (true, some
        { match_type := "exact", match_score := 100, matched_row_index := p.1,
          matched_fields := cfg.check_fields,
          match_details := "Exact match on key: " ++ new_key })

/-- fuzzy_match (lines 111-143): keep the highest-scoring corpus row whose
key similarity is strictly above the best seen so far and at least the
threshold; earliest index wins ties. -/
def fuzzy_match (cfg : DetectorCfg) (new_row : Row) (existing : List Row) :
    Bool × Option MatchInfo :=
  match generate_record_key cfg.check_fields new_row with
  | none => (false, none)
  | some new_key =>
    let best := existing.enum.foldl (fun acc p =>
      match generate_record_key cfg.check_fields p.2 with
      | none => acc
      | some ekey =>
        let score := fuzzScore new_key ekey
        let bestScore := match acc with | none => 0 | some q => q.1
        if score > bestScore && score ≥ cfg.threshold then some (score, p.1) else acc)
      (none : Option (Nat × Nat))
    match best with
    | none => (false, none)
    | some q => (true, some
        { match_type := "fuzzy", match_score := q.1, matched_row_index := q.2,
          matched_fields := cfg.check_fields,
          match_details := "Fuzzy match (score: " ++ toString q.1 ++ "%) on key fields" })

def title_field : String := "Document Title"

/-- title_similarity_match (lines 145-187); ENABLE_FUZZY_TITLE_MATCHING is
True in config.py. -/
def title_similarity_match (new_row : Row) (existing : List Row) :
    Bool × Option MatchInfo :=
  let new_title := normalize_text (fieldVal new_row title_field)
  if new_title = "" then (false, none)
  else
    let best := existing.enum.foldl (fun acc p =>
      let et := normalize_text (fieldVal p.2 title_field)
      if et = "" then acc
      else
        let score := fuzzScore new_title et
        let bestScore := match acc with | none => 0 | some q => q.1
        if score > bestScore && score ≥ TITLE_SIMILARITY_THRESHOLD then
          some (score, p.1, et)
        else acc)
      (none : Option (Nat × Nat × String))
    match best with
    | none => (false, none)
    | some q => (true, some
        { match_type := "title_similarity", match_score := q.1,
          matched_row_index := q.2.1, matched_fields := [title_field],
          match_details := "Similar title (score: " ++ toString q.1 ++ "%): "
            ++ new_title ++ " vs " ++ q.2.2 })

/-- content_hash_match (lines 189-209); ENABLE_CONTENT_HASH is True in
config.py. -/
def content_hash_match (new_row : Row) (existing : List Row) :
    Bool × Option MatchInfo :=
  match generate_content_hash new_row CONTENT_FIELDS_FOR_HASH with
  | none => (false, none)
  | some nh =>
    match existing.enum.find?
        (fun p => generate_content_hash p.2 CONTENT_FIELDS_FOR_HASH == some nh) with
    | none => (false, none)
    | some p => (true, some
        { match_type := "content_hash", match_score := 100, matched_row_index := p.1,
          matched_fields := CONTENT_FIELDS_FOR_HASH,
          match_details := "Content hash match: " ++ nh })

/-- A strategy as consumed by the multi loop: it may raise (Except.error)
or return a verdict. -/
abbrev StrategyE := Row → List Row → Except String (Bool × Option MatchInfo)

/-- The strategy loop of check_for_duplicate, method multi (lines 248-265):
try the strategies in order, return the first positive match, and skip any
strategy that raises. -/
def multiStrategyLoop (strategies : List StrategyE) (new_row : Row)
    (existing : List Row) : Bool × Option MatchInfo :=
  match strategies with
  | [] => (false, none)
  | s :: rest =>
    match s new_row existing with
    | .error _ => multiStrategyLoop rest new_row existing
    | .ok (true, info) => (true, info)
    | .ok (false, _) => multiStrategyLoop rest new_row existing

/-- The strategy list built at lines 250-255, in source order: exact, fuzzy,
title similarity, content hash.  The embedded strategies are total, so the
error branch of the loop is never taken on this list. -/
def multiStrategies (cfg : DetectorCfg) : List StrategyE :=
  [fun r c => .ok (exact_match cfg r c),
   fun r c => .ok (fuzzy_match cfg r c),
   fun r c => .ok (title_similarity_match r c),
   fun r c => .ok (content_hash_match r c)]

/-- check_for_duplicate (lines 211-269).  A missing corpus is the None
argument; the early return at line 222 fires for None and for an empty
DataFrame.  The list-shaped new_row branch (lines 226-231) only re-labels a
positional row with the corpus column names and is not needed by dict-shaped
rows, which is how every claim exercises the function. -/
def check_for_duplicate (cfg : DetectorCfg) (method : String) (new_row : Row)
    (existing_data : Option (List Row)) : Bool × Option MatchInfo :=
  match existing_data with
  | none => (false, none)
  | some existing =>
    if existing = [] then (false, none)
    else if method = "exact" then exact_match cfg new_row existing
    else if method = "fuzzy" then
      let r := fuzzy_match cfg new_row existing
      if r.1 then r else title_similarity_match new_row existing
    else if method = "hash" then content_hash_match new_row existing
    else if method = "multi" then multiStrategyLoop (multiStrategies cfg) new_row existing
    else exact_match cfg new_row existing

/-- One step of the marker loop of mark_as_duplicate (lines 316-319): a
present, truthy field value that does not already start with the marker
prefix is replaced by the prefixed value. -/
def markFieldStep (acc : Row) (f : String) : Row :=
  match rowGet acc f with
  | none => acc
  | some v =>
    if v = "" then acc
    else if pyStartsWith v DUPLICATE_MARKER_PREFIX then acc
    else rowSet acc f (DUPLICATE_MARKER_PREFIX ++ v)

/-- Lines 322-323: add the duplicate flag if not already present. -/
def markFlagStep (m : Row) : Row :=
  if (rowGet m "Duplicate_Flag").isSome then m
  else rowSet m "Duplicate_Flag" "TRUE"

/-- Lines 325-326: add the detection date if not already present. -/
def markDateStep (dateStr : String) (m : Row) : Row :=
  if (rowGet m "Duplicate_Detected_Date").isSome then m
  else rowSet m "Duplicate_Detected_Date" dateStr

/-- mark_as_duplicate (lines 308-328); ADD_DUPLICATE_MARKER is True in
config.py.  The detection date written into Duplicate_Detected_Date is
passed in as dateStr (datetime.now at the call site). -/
def mark_as_duplicate (check_fields : List String) (dateStr : String)
    (row_data : Row) : Row :=
  markDateStep dateStr (markFlagStep (check_fields.foldl markFieldStep row_data))

/-! ## AdvancedDuplicateDetector
(repo/multi_sheet_system/advanced_duplicate_detector.py) -/

/-- File metadata as consumed by the advanced detector: identifier, display
name, declared size (a Python float once parsed), and the perceptual hash
dictionary computed from the thumbnail at lines 227-232.  Files whose
thumbnail could not be fetched simply do not appear in the perceptual pass
input, exactly as they are skipped at lines 216-241. -/
structure FileRec where
  id : String
  name : String
  size : Rat
  hashes : List (String × String)
deriving DecidableEq

/-- A duplicate group as built by the detection handlers: type tag,
confidence tier, member files, member count, estimated redundant megabytes,
and the category stamped on at line 134 when groups are merged. -/
structure DupGroup where
  gtype : String
  confidence : String
  files : List FileRec
  duplicate_count : Nat
  potential_savings_mb : Rat
  category : String
deriving DecidableEq

/-- Levenshtein.hamming on the equal-length perceptual hash strings
(line 261): the number of mismatching positions. -/
def hammingDist (a b : String) : Nat :=
  (a.data.zip b.data).countP (fun p => !(p.1 == p.2))

/-- Hash algorithms compared at line 259. -/
def hashAlgos : List String := ["phash", "ahash", "dhash", "whash"]

/-- Distances over the hash algorithms available on both sides
(lines 258-262). -/
def commonHashDistances (h1 h2 : List (String × String)) : List Nat :=
  hashAlgos.filterMap (fun t =>
    match rowGet h1 t, rowGet h2 t with
    | some a, some b => some (hammingDist a b)
    | _, _ => none)

/-- Acceptance test at lines 264-266: some common algorithm exists and the
average distance is at most the threshold.  The Python float comparison
sum / len less-or-equal thr is the exact rational test sum le thr * len. -/
def perceptualMatches (thr : Nat) (h1 h2 : List (String × String)) : Bool :=
  let ds := commonHashDistances h1 h2
  !ds.isEmpty && decide (ds.sum ≤ thr * ds.length)

/-- Inner loop of the perceptual pass (lines 253-268): scan every entry,
skipping the seed itself and already-processed ids, and absorb every entry
within threshold of the seed, marking it processed. -/
def collectSimilar (thr : Nat) (seed : FileRec) :
    List FileRec → List FileRec × List String → List FileRec × List String
  | [], acc => acc
  | e :: rest, acc =>
    if e.id = seed.id ∨ e.id ∈ acc.2 then collectSimilar thr seed rest acc
    else if perceptualMatches thr seed.hashes e.hashes then
      collectSimilar thr seed rest (acc.1 ++ [e], acc.2 ++ [e.id])
    else collectSimilar thr seed rest acc

/-- Group record emitted at lines 270-279 (potential_savings_mb is not set
by this handler, so downstream reads of it default to 0; the category is
stamped later by the merge loop). -/
def mkPerceptualGroup (files : List FileRec) : DupGroup :=
  { gtype := "perceptual_image", confidence := "high", files := files,
    duplicate_count := files.length, potential_savings_mb := 0, category := "" }

/-- Outer loop of _find_perceptual_image_duplicates (lines 247-281): each
unprocessed entry seeds a group of the entries similar to it; a group is
emitted when it has more than one member; the seed is then marked
processed.  The group key derives deterministically from the seed id
(line 271). -/
def perceptualLoop (thr : Nat) (entries : List FileRec) :
    List FileRec → List String → List (String × DupGroup)
  | [], _ => []
  | e :: rest, processed =>
    if e.id ∈ processed then perceptualLoop thr entries rest processed
    else
      let sp := collectSimilar thr e entries ([e], processed)
      let tail := perceptualLoop thr entries rest (sp.2 ++ [e.id])
      if sp.1.length > 1 then ("perceptual_" ++ e.id, mkPerceptualGroup sp.1) :: tail
      else tail

/-- _find_perceptual_image_duplicates (lines 208-283), from the point where
the perceptual hashes are in hand. -/
def find_perceptual_image_duplicates (thr : Nat) (entries : List FileRec) :
    List (String × DupGroup) :=
  perceptualLoop thr entries entries []

/-- The per-category merge loop of detect_all_duplicates (lines 117-140):
each category handler may raise; a raising handler is skipped and the loop
continues; a succeeding handler's groups are merged under the unique key
category-underscore-groupid with the category stamped on. -/
def runCategoryHandlers :
    List (String × Except String (List (String × DupGroup))) →
    List (String × DupGroup)
  | [] => []
  | (_, .error _) :: rest => runCategoryHandlers rest
  | (cat, .ok gs) :: rest =>
    gs.map (fun q => (cat ++ "_" ++ q.1, { q.2 with category := cat }))
      ++ runCategoryHandlers rest

/-- The statistics line of detect_all_duplicates (lines 149-151): the total
duplicate count is the plain sum of the duplicate_count of every group. -/
def total_duplicates_found (all_duplicates : List (String × DupGroup)) : Nat :=
  (all_duplicates.map (fun p => p.2.duplicate_count)).sum

/-- confidence_scores dict with default 1 (line 588 and the .get at
line 598). -/
def confidence_scores (c : String) : Nat :=
  if c = "high" then 3 else if c = "medium" then 2
  else if c = "low" then 1 else 1

/-- Ranked entry built at lines 603-611. -/
structure RankedEntry where
  group_id : String
  score : Rat
  confidence : String
  duplicate_count : Nat
  potential_savings_mb : Rat
  gtype : String
  files : List FileRec
deriving DecidableEq

/-- Composite score of lines 597-601: confidence weight times 100, plus the
potential savings capped at 1000 MB, plus ten per duplicate. -/
def rankScore (g : DupGroup) : Rat :=
  (confidence_scores g.confidence : Rat) * 100
    + min g.potential_savings_mb 1000
    + (g.duplicate_count : Rat) * 10

def mkRankedEntry (p : String × DupGroup) : RankedEntry :=
  { group_id := p.1, score := rankScore p.2, confidence := p.2.confidence,
    duplicate_count := p.2.duplicate_count,
    potential_savings_mb := p.2.potential_savings_mb,
    gtype := p.2.gtype, files := p.2.files }

/-- Descending-score order used by the sort at line 614. -/
def rankRel (a b : RankedEntry) : Prop := b.score ≤ a.score

instance : DecidableRel rankRel :=
  fun a b => inferInstanceAs (Decidable (b.score ≤ a.score))

instance : IsTotal RankedEntry rankRel := ⟨fun a b => le_total b.score a.score⟩

instance : IsTrans RankedEntry rankRel :=
  ⟨fun _ _ _ h1 h2 => le_trans h2 h1⟩

/-- _rank_duplicate_groups (lines 585-616): build the entries in discovery
order, then stably sort by score descending (Python list.sort is stable,
also with reverse=True; a stable sort is modelled by insertion sort). -/
def rank_duplicate_groups (duplicates : List (String × DupGroup)) :
    List RankedEntry :=
  List.insertionSort rankRel (duplicates.map mkRankedEntry)

/-! ## Chunking

Both batch writers slice their input with Python range stepping:
data[i : i + size] for i in range(0, len, size).  The fuel makes the
definition structural; the fuel is always sufficient at the call sites, and
theorems about chunking assume the Python precondition size > 0 (range
raises on a zero step). -/

def chunksOfFuel {α : Type} : Nat → Nat → List α → List (List α)
  | 0, _, l => if l.isEmpty then [] else [l]
  | _, _, [] => []
  | fuel + 1, n, l => l.take n :: chunksOfFuel fuel n (l.drop n)

def chunksOf {α : Type} (n : Nat) (l : List α) : List (List α) :=
  chunksOfFuel l.length n l

/-! ## Worksheets (doc_research_gpt/sheets_utils.py)

A worksheet is its grid of rows as returned by get_all_values; trailing
all-empty rows are not materialised. -/

abbrev WsRow := List String

abbrev Ws := List WsRow

/-- Row occupancy test of get_sheet_row_count: any cell non-empty after
strip. -/
def rowHasData (r : WsRow) : Bool := r.any (fun c => !(pyStrip c == ""))

/-- get_sheet_row_count (sheets_utils.py lines 40-52). -/
def get_sheet_row_count (ws : Ws) : Nat := ws.countP rowHasData

/-- is_sheet_full (lines 54-60). -/
def is_sheet_full (maxRows : Nat) (ws : Ws) : Bool :=
  decide (get_sheet_row_count ws ≥ maxRows)

/-- worksheet.update over the range starting at 1-based row start: the data
rows overwrite the grid from that position, extending it as needed. -/
def wsWrite (ws : Ws) (start : Nat) (data : List WsRow) : Ws :=
  let p := start - 1
  (ws.take p ++ List.replicate (p - ws.length) ([] : WsRow))
    ++ data ++ ws.drop (p + data.length)

/-- setup_sheet_headers (lines 75-87): write the header row at row 1. -/
def setup_sheet_headers (headers : WsRow) (ws : Ws) : Ws := wsWrite ws 1 [headers]

/-! ## MultiSheetManager batch append
(repo/multi_sheet_system/multi_sheet_manager.py, add_batch_data,
lines 326-441)

The backend is a single active spreadsheet holding a list of worksheets;
backend writes succeed or fail according to an explicit oracle indexed by a
write-operation counter.  Creating a worksheet always succeeds in the
model, so the create-new-spreadsheet fallback taken only when tab creation
fails is unreachable; the new-spreadsheet branch reached when the tab limit
is hit is modelled as starting a fresh container, as _create_new_spreadsheet
does. -/

structure MSCfg where
  maxRows : Nat
  maxSheets : Nat
  headers : WsRow
  wOk : Nat → Bool

structure MSState where
  sheets : List Ws
  cur : Nat
  wctr : Nat

/-- find_available_sheet (sheets_utils.py lines 132-144): first worksheet
below capacity, else a freshly created empty tab. -/
def find_available_sheet (maxRows : Nat) (sheets : List Ws) : Nat × List Ws :=
  match sheets.findIdx? (fun ws => !is_sheet_full maxRows ws) with
  | some i => (i, sheets)
  | none => (sheets.length, sheets ++ [[]])

/-- get_or_create_spreadsheet combined with _spreadsheet_has_capacity
(multi_sheet_manager.py lines 74-165), as invoked at the top of every
chunk: below the tab limit the current worksheet becomes the first
available one (creating a tab if necessary, without writing headers);
at the tab limit a non-full worksheet is looked up, and failing that a
fresh spreadsheet with a single header-initialised worksheet is started. -/
def msGetOrCreate (cfg : MSCfg) (st : MSState) : MSState :=
  if st.sheets.length ≥ cfg.maxSheets then
    match st.sheets.findIdx? (fun ws => !is_sheet_full cfg.maxRows ws) with
    | some i => { st with cur := i }
    | none => { st with sheets := [setup_sheet_headers cfg.headers []], cur := 0 }
  else
    let av := find_available_sheet cfg.maxRows st.sheets
    { st with sheets := av.2, cur := av.1 }

/-- batch_update_sheet (sheets_utils.py lines 107-130) against the current
worksheet: on success the rows land at the first free row and the call
reports true; on failure the worksheet is untouched and the call reports
false.  Every call consumes one tick of the write oracle. -/
def batch_update_sheet (cfg : MSCfg) (st : MSState) (data : List WsRow) :
    MSState × Bool :=
  let ws := st.sheets.getD st.cur []
  if cfg.wOk st.wctr then
    ({ st with
        sheets := st.sheets.set st.cur (wsWrite ws (get_sheet_row_count ws + 1) data),
        wctr := st.wctr + 1 }, true)
  else ({ st with wctr := st.wctr + 1 }, false)

/-- The roll-over of add_batch_data (lines 374-380 and 394-400): move to the
first available worksheet (creating one if needed) and write headers into
it when it is empty. -/
def msRollToAvailable (cfg : MSCfg) (st : MSState) : MSState :=
  let av := find_available_sheet cfg.maxRows st.sheets
  let st2 : MSState := { st with sheets := av.2, cur := av.1 }
  let ws := st2.sheets.getD st2.cur []
  if get_sheet_row_count ws == 0 then
    { st2 with sheets := st2.sheets.set st2.cur (setup_sheet_headers cfg.headers ws) }
  else st2

/-- Success and failure tallies of add_batch_data. -/
structure BatchResults where
  total_rows : Nat
  successful_rows : Nat
  failed_rows : Nat
deriving DecidableEq

def tally (res : BatchResults) (ok : Bool) (n : Nat) : BatchResults :=
  if ok then { res with successful_rows := res.successful_rows + n }
  else { res with failed_rows := res.failed_rows + n }

/-- One chunk of add_batch_data (lines 346-424): when the chunk would push
the current worksheet past the ceiling and some space remains, the fitting
portion is written in place and the remainder goes to the next available
worksheet; with no space at all the whole chunk goes to the next available
worksheet; otherwise the chunk is written in place. -/
def msProcessChunk (cfg : MSCfg) (st : MSState) (res : BatchResults)
    (chunk : List WsRow) : MSState × BatchResults :=
  let st := msGetOrCreate cfg st
  let current_rows := get_sheet_row_count (st.sheets.getD st.cur [])
  if current_rows + chunk.length > cfg.maxRows then
    let available := cfg.maxRows - current_rows
    if available > 0 then
      let fits := chunk.take available
      let rest := chunk.drop available
      let wr := batch_update_sheet cfg st fits
      let res := tally res wr.2 fits.length
      if rest.isEmpty then (wr.1, res)
      else
        let st2 := msRollToAvailable cfg wr.1
        let wr2 := batch_update_sheet cfg st2 rest
        (wr2.1, tally res wr2.2 rest.length)
    else
      let st2 := msRollToAvailable cfg st
      let wr := batch_update_sheet cfg st2 chunk
      (wr.1, tally res wr.2 chunk.length)
  else
    let wr := batch_update_sheet cfg st chunk
    (wr.1, tally res wr.2 chunk.length)

/-- add_batch_data (lines 326-441). -/
def add_batch_data (cfg : MSCfg) (st : MSState) (data_list : List WsRow)
    (chunk_size : Nat) : MSState × BatchResults :=
  (chunksOf chunk_size data_list).foldl
    (fun acc c => msProcessChunk cfg acc.1 acc.2 c)
    (st, { total_rows := data_list.length, successful_rows := 0, failed_rows := 0 })

/-! ## AutoScalingSheetManager registry
(repo/multi_sheet_system/auto_scaling_sheets.py)

For the registry bookkeeping only the rows_used counter, the per-sheet
ceiling and the sheet order matter; create_new_sheet registers a fresh
sheet whose counter is 1 for the header row (line 165). -/

structure ASheet where
  rows_used : Nat
  max_rows : Nat
deriving DecidableEq

structure ASState where
  sheets : List ASheet
  current_sheet_index : Nat
  total_rows_used : Nat
deriving DecidableEq

/-- create_new_sheet (lines 109-199), reduced to its registry effect. -/
def create_new_sheet (maxRows : Nat) (st : ASState) : ASState :=
  { st with sheets := st.sheets ++ [{ rows_used := 1, max_rows := maxRows }] }

/-- get_current_sheet (lines 246-261): create the first sheet when the
registry is empty; roll to a fresh sheet when the current one has reached
its ceiling; otherwise keep the current sheet.  Returns the updated state
and the index of the sheet handed to the caller. -/
def get_current_sheet (maxRows : Nat) (st : ASState) : ASState × Nat :=
  if st.sheets.isEmpty then (create_new_sheet maxRows st, 0)
  else
    let cur := st.sheets.getD st.current_sheet_index { rows_used := 0, max_rows := 0 }
    if cur.rows_used ≥ cur.max_rows then
      let st2 := create_new_sheet maxRows st
      ({ st2 with current_sheet_index := st2.sheets.length - 1 },
        st2.sheets.length - 1)
    else (st, st.current_sheet_index)

/-- Registry counter update after a successful write (line 320): the target
sheet's rows_used grows by the number of rows written. -/
def asAddRows (sheets : List ASheet) (idx n : Nat) : List ASheet :=
  sheets.set idx
    (let s := sheets.getD idx { rows_used := 0, max_rows := 0 }
     { s with rows_used := s.rows_used + n })

/-- One chunk of the batch loop of add_file_data (lines 281-330): obtain
the current sheet (possibly creating one), then attempt the backend write;
on success the target counter grows by the chunk length and the chunk
length is reported; on failure nothing is incremented and 0 is reported. -/
def asStep (maxRows : Nat) (wOk : Nat → Bool) (i : Nat) (st : ASState)
    (c : List Row) : ASState × Nat :=
  let g := get_current_sheet maxRows st
  if wOk i then ({ g.1 with sheets := asAddRows g.1.sheets g.2 c.length }, c.length)
  else (g.1, 0)

/-- The batch loop of add_file_data over all chunks. -/
def asProcessChunks (maxRows : Nat) (wOk : Nat → Bool) :
    List (List Row) → Nat → ASState → ASState × Nat
  | [], _, st => (st, 0)
  | c :: cs, i, st =>
    let p := asStep maxRows wOk i st c
    let t := asProcessChunks maxRows wOk cs (i + 1) p.1
    (t.1, p.2 + t.2)

/-- add_file_data (lines 263-348), reduced to its registry effect: process
the chunks, then add the grand total to total_rows_used; the returned
number is the rows_added of the summary. -/
def add_file_data (maxRows : Nat) (wOk : Nat → Bool) (st : ASState)
    (file_data : List Row) (batch_size : Nat) : ASState × Nat :=
  let t := asProcessChunks maxRows wOk (chunksOf batch_size file_data) 0 st
  ({ t.1 with total_rows_used := t.1.total_rows_used + t.2 }, t.2)

/-- Sum of the successful chunk sizes, indexed like the batch loop. -/
def successfulRows (wOk : Nat → Bool) : List (List Row) → Nat → Nat
  | [], _ => 0
  | c :: cs, i => (if wOk i then c.length else 0) + successfulRows wOk cs (i + 1)

/-- Total of the registry row counters. -/
def sumRowsUsed (sheets : List ASheet) : Nat :=
  (sheets.map (fun s => s.rows_used)).sum

/-! ## Reference combinators and concrete inputs used by the theorems -/

/-- First positive match over a list of total strategies: the scan stops at
the first strategy that reports a match. -/
def firstPositiveMatch :
    List (Row → List Row → Bool × Option MatchInfo) → Row → List Row →
    Bool × Option MatchInfo
  | [], _, _ => (false, none)
  | s :: rest, r, c => if (s r c).1 then s r c else firstPositiveMatch rest r c

/-- Modelled from the spec: the multi strategy as the spec words it, a
first-positive-match scan in the claimed priority order exact, then
fuzzy-key and content-hash, then title-similarity, then size.  The
DuplicateDetector has no size strategy at all, so the claimed order is
truncated after the four strategies that exist; in the counterexample the
claimed scan already stops at content-hash, so the ordering inside the
later tiers is immaterial. -/
def spec_claimed_multi (cfg : DetectorCfg) (r : Row) (c : List Row) :
    Bool × Option MatchInfo :=
  firstPositiveMatch
    [fun a b => exact_match cfg a b,
     fun a b => fuzzy_match cfg a b,
     fun a b => content_hash_match a b,
     fun a b => title_similarity_match a b] r c

/-- A new record with no key fields (so the exact and fuzzy key strategies
cannot fire), whose title and content fields coincide with the corpus
record below. -/
def c1NewRow : Row :=
  [("Document Title", "Energy Report"), ("Summary", "solar output"),
   ("Tags", "energy")]

def c1Corpus : List Row :=
  [[("Document Title", "Energy Report"), ("Summary", "solar output"),
    ("Tags", "energy")]]

/-- Three image records whose perceptual hashes form a chain: a matches b
and b matches c at threshold 1, but a does not match c. -/
def imgA : FileRec := { id := "a", name := "a.png", size := 1, hashes := [("phash", "00")] }

def imgB : FileRec := { id := "b", name := "b.png", size := 1, hashes := [("phash", "01")] }

def imgC : FileRec := { id := "c", name := "c.png", size := 1, hashes := [("phash", "11")] }

/-- A high-confidence group with no reclaimable space and few members. -/
def gHigh : DupGroup :=
  { gtype := "exact_content", confidence := "high", files := [],
    duplicate_count := 2, potential_savings_mb := 0, category := "document" }

/-- A low-confidence group with 50 MB of reclaimable space and many
members. -/
def gLow : DupGroup :=
  { gtype := "exact_size", confidence := "low", files := [],
    duplicate_count := 18, potential_savings_mb := 50, category := "video" }

/-- A low-confidence group with 50 MB of reclaimable space and as few
members as the high-confidence group. -/
def gLowSmall : DupGroup :=
  { gtype := "exact_size", confidence := "low", files := [],
    duplicate_count := 2, potential_savings_mb := 50, category := "video" }

/-- Two groups sharing the member file imgB, for the overlap statistics
witness. -/
def g1Overlap : DupGroup :=
  { gtype := "perceptual_image", confidence := "high", files := [imgA, imgB],
    duplicate_count := 2, potential_savings_mb := 0, category := "image" }

def g2Overlap : DupGroup :=
  { gtype := "exact_size", confidence := "low", files := [imgB, imgC],
    duplicate_count := 2, potential_savings_mb := 0, category := "image" }

/-- The batch-append counterexample input: ceiling 3, one empty worksheet,
five one-cell records appended in one call with the default chunk size. -/
def msDemoCfg : MSCfg :=
  { maxRows := 3, maxSheets := 10,
    headers := ["Document ID", "Document Title"], wOk := fun _ => true }

def msDemoState : MSState := { sheets := [[]], cur := 0, wctr := 0 }

def msDemoData : List WsRow := [["r1"], ["r2"], ["r3"], ["r4"], ["r5"]]

/-! # Theorems -/

/-! ## Strategy behaviour on an empty corpus -/

theorem exact_match_nil (cfg : DetectorCfg) (r : Row) :
    exact_match cfg r [] = (false, none) := by
  unfold exact_match
  cases generate_record_key cfg.check_fields r <;> simp

theorem fuzzy_match_nil (cfg : DetectorCfg) (r : Row) :
    fuzzy_match cfg r [] = (false, none) := by
  unfold fuzzy_match
  cases generate_record_key cfg.check_fields r <;> simp

theorem title_similarity_match_nil (r : Row) :
    title_similarity_match r [] = (false, none) := by
  unfold title_similarity_match
  by_cases h : normalize_text (fieldVal r title_field) = "" <;> simp [h]

theorem content_hash_match_nil (r : Row) :
    content_hash_match r [] = (false, none) := by
  unfold content_hash_match
  cases generate_content_hash r CONTENT_FIELDS_FOR_HASH <;> simp

/-- The multi loop over strategies that never raise is the plain
first-positive-match scan. -/
theorem multiLoop_ok_eq_first
    (ss : List (Row → List Row → Bool × Option MatchInfo)) (r : Row) (c : List Row) :
    multiStrategyLoop
        (ss.map (fun s => (fun a b => Except.ok (s a b) : StrategyE))) r c =
      firstPositiveMatch ss r c := by
  induction ss with
  | nil => rfl
  | cons s rest ih =>
    simp only [List.map_cons, multiStrategyLoop, firstPositiveMatch]
    rcases h : s r c with ⟨b, i⟩
    cases b <;> simp [h, ih]

/-- C9: for every configuration, detection method and new row,
check_for_duplicate against a missing (None) or empty corpus returns
(False, None): an empty corpus never yields a duplicate match. -/
theorem check_for_duplicate_empty_corpus (cfg : DetectorCfg) (method : String) (r : Row) :
    check_for_duplicate cfg method r none = (false, none) ∧
      check_for_duplicate cfg method r (some []) = (false, none) := by
  exact ⟨rfl, by simp [check_for_duplicate]⟩

/-- C1 (amended): with detection method multi, check_for_duplicate tries
the strategies in the fixed source order exact, then fuzzy-key, then
title-similarity, then content-hash (there is no size strategy in this
detector), and returns the first positive match of that scan, not the
highest-scoring match across all strategies. -/
theorem check_multi_eq_firstPositive (cfg : DetectorCfg) (r : Row) (c : List Row) :
    check_for_duplicate cfg "multi" r (some c) =
      firstPositiveMatch
        [fun a b => exact_match cfg a b,
         fun a b => fuzzy_match cfg a b,
         fun a b => title_similarity_match a b,
         fun a b => content_hash_match a b] r c := by
  by_cases hc : c = []
  · subst hc
    simp [check_for_duplicate, firstPositiveMatch, exact_match_nil,
      fuzzy_match_nil, title_similarity_match_nil, content_hash_match_nil]
  · have h1 : check_for_duplicate cfg "multi" r (some c) =
        multiStrategyLoop (multiStrategies cfg) r c := by
      simp [check_for_duplicate, hc]
    have h2 : multiStrategies cfg =
        List.map (fun s => (fun a b => Except.ok (s a b) : StrategyE))
          [fun a b => exact_match cfg a b,
           fun a b => fuzzy_match cfg a b,
           fun a b => title_similarity_match a b,
           fun a b => content_hash_match a b] := rfl
    rw [h1, h2, multiLoop_ok_eq_first]

/-! ## Content hash invariance -/

/-- Dict lookup is unchanged by permuting the bindings of a row whose keys
are distinct (Python dict keys always are). -/
theorem rowGet_perm (r1 r2 : Row) (h : r1.Perm r2)
    (hnd : (r1.map Prod.fst).Nodup) (f : String) : rowGet r1 f = rowGet r2 f := by
  induction h with
  | nil => rfl
  | cons x h ih =>
    simp only [List.map_cons, List.nodup_cons] at hnd
    simp only [rowGet, List.find?_cons]
    cases hx : (x.1 == f)
    · simpa [rowGet] using ih hnd.2
    · rfl
  | swap x y l =>
    simp only [List.map_cons, List.nodup_cons, List.mem_cons] at hnd
    have hxy : y.1 ≠ x.1 := fun e => hnd.1 (Or.inl e)
    simp only [rowGet, List.find?_cons]
    cases hx : (x.1 == f) <;> cases hy : (y.1 == f)
    · rfl
    · rfl
    · rfl
    · exact absurd (by rw [eq_of_beq hy, eq_of_beq hx]) hxy
  | trans h1 h2 ih1 ih2 =>
    have hnd2 := (h1.map Prod.fst).nodup_iff.mp hnd
    rw [ih1 hnd, ih2 hnd2]

/-- Sorting with the Python string order turns permuted inputs into equal
outputs. -/
theorem insertionSort_eq_of_perm (l1 l2 : List String) (h : l1.Perm l2) :
    List.insertionSort pyStrLe l1 = List.insertionSort pyStrLe l2 :=
  List.eq_of_perm_of_sorted
    ((List.perm_insertionSort _ l1).trans (h.trans (List.perm_insertionSort _ l2).symm))
    (List.sorted_insertionSort _ l1) (List.sorted_insertionSort _ l2)

/-- C6: the content hash is invariant under permuting the field list and
under permuting the bindings of the record (whose keys, as Python dict
keys, are distinct), and the hash is null exactly when no field produced
non-empty normalized content. -/
theorem contentPart_eq_none (row : Row) (f : String) :
    contentPart row f = none ↔ normalize_text (fieldVal row f) = "" := by
  simp only [contentPart]
  by_cases h : normalize_text (fieldVal row f) = "" <;> simp [h]

theorem generate_content_hash_invariance :
    (∀ (row1 row2 : Row) (fields1 fields2 : List String),
        fields1.Perm fields2 → row1.Perm row2 → (row1.map Prod.fst).Nodup →
        generate_content_hash row1 fields1 = generate_content_hash row2 fields2)
    ∧ (∀ (row : Row) (fields : List String),
        generate_content_hash row fields = none ↔
          ∀ f ∈ fields, normalize_text (fieldVal row f) = "") := by
  constructor
  · intro row1 row2 fields1 fields2 hf hr hnd
    have hcp : contentPart row1 = contentPart row2 := by
      funext f
      simp only [contentPart, fieldVal, rowGet_perm row1 row2 hr hnd f]
    simp only [generate_content_hash, hcp]
    have hP : (fields1.filterMap (contentPart row2)).Perm
        (fields2.filterMap (contentPart row2)) := hf.filterMap _
    by_cases h1 : fields1.filterMap (contentPart row2) = []
    · have h2 := (h1 ▸ hP).symm.eq_nil
      simp [h1, h2]
    · have h2 : fields2.filterMap (contentPart row2) ≠ [] := by
        intro h2
        exact h1 (h2 ▸ hP).eq_nil
      simp only [h1, h2, if_false]
      rw [insertionSort_eq_of_perm _ _ hP]
  · intro row fields
    constructor
    · intro h f hf
      by_contra hn
      have hne : fields.filterMap (contentPart row) ≠ [] := by
        intro hnil
        rw [List.filterMap_eq_nil_iff] at hnil
        exact hn ((contentPart_eq_none row f).mp (hnil f hf))
      simp [generate_content_hash, hne] at h
    · intro h
      have hnil : fields.filterMap (contentPart row) = [] := by
        rw [List.filterMap_eq_nil_iff]
        intro f hf
        exact (contentPart_eq_none row f).mpr (h f hf)
      simp [generate_content_hash, hnil]

/-- Witness for the content-hash invariance: permuting both the field list
and the record bindings leaves the hash unchanged on a concrete record. -/
theorem generate_content_hash_invariance_witness :
    generate_content_hash [("Summary", "beta"), ("Tags", "alpha")] ["Summary", "Tags"] =
      generate_content_hash [("Tags", "alpha"), ("Summary", "beta")] ["Tags", "Summary"] :=
  generate_content_hash_invariance.1 _ _ _ _ (by decide) (by decide) (by decide)

/-! ## Idempotence of the duplicate marker -/

theorem rowGet_rowSet_self (r : Row) (f w : String) :
    rowGet (rowSet r f w) f = some w := by
  induction r with
  | nil => simp [rowSet, rowGet]
  | cons p rest ih =>
    by_cases h : p.1 = f
    · simp [rowSet, rowGet, h, List.find?_cons]
    · simpa [rowSet, rowGet, h, List.find?_cons] using ih

theorem rowGet_rowSet_other (r : Row) (f g w : String) (hgf : g ≠ f) :
    rowGet (rowSet r f w) g = rowGet r g := by
  induction r with
  | nil => simp [rowSet, rowGet, List.find?_cons, Ne.symm hgf]
  | cons p rest ih =>
    by_cases h : p.1 = f
    · subst h
      simp [rowSet, rowGet, List.find?_cons, beq_false_of_ne (Ne.symm hgf)]
    · by_cases hg : p.1 = g
      · simp [rowSet, rowGet, h, List.find?_cons, hg, hgf]
      · simpa [rowSet, rowGet, h, List.find?_cons, hg] using ih

theorem pyStartsWith_append (p v : String) : pyStartsWith (p ++ v) p = true := by
  simp only [pyStartsWith, String.data_append, List.isPrefixOf_iff_prefix]
  exact List.prefix_append _ _

/-- A field already processed by the marker step is stable: its value is
either falsy or already carries the prefix. -/
theorem markFieldStep_stable_self (r : Row) (f : String) (v : String)
    (h : rowGet (markFieldStep r f) f = some v) :
    v = "" ∨ pyStartsWith v DUPLICATE_MARKER_PREFIX = true := by
  cases hget : rowGet r f with
  | none =>
    simp only [markFieldStep, hget] at h
    exact Option.noConfusion h
  | some u =>
    simp only [markFieldStep, hget] at h
    by_cases hu : u = ""
    · rw [if_pos hu, hget] at h
      exact Or.inl (hu ▸ (Option.some.inj h).symm)
    · rw [if_neg hu] at h
      by_cases hs : pyStartsWith u DUPLICATE_MARKER_PREFIX = true
      · rw [if_pos hs, hget] at h
        exact Or.inr ((Option.some.inj h) ▸ hs)
      · rw [if_neg hs, rowGet_rowSet_self] at h
        exact Or.inr ((Option.some.inj h) ▸ pyStartsWith_append _ u)

theorem rowGet_markFieldStep_other (r : Row) (f g : String) (hgf : g ≠ f) :
    rowGet (markFieldStep r f) g = rowGet r g := by
  cases hget : rowGet r f with
  | none => simp only [markFieldStep, hget]
  | some u =>
    simp only [markFieldStep, hget]
    by_cases hu : u = ""
    · rw [if_pos hu]
    · rw [if_neg hu]
      by_cases hs : pyStartsWith u DUPLICATE_MARKER_PREFIX = true
      · rw [if_pos hs]
      · rw [if_neg hs, rowGet_rowSet_other _ _ _ _ hgf]

/-- Stability of a field is created by its own marker step and preserved by
every other step. -/
theorem markFieldStep_stable (r : Row) (f g : String)
    (hg : g ≠ f → ∀ v, rowGet r g = some v →
      v = "" ∨ pyStartsWith v DUPLICATE_MARKER_PREFIX = true) :
    ∀ v, rowGet (markFieldStep r f) g = some v →
      v = "" ∨ pyStartsWith v DUPLICATE_MARKER_PREFIX = true := by
  by_cases hgf : g = f
  · subst hgf
    exact fun v h => markFieldStep_stable_self r g v h
  · intro v h
    rw [rowGet_markFieldStep_other r f g hgf] at h
    exact hg hgf v h

/-- After the whole marker loop, every processed field is stable, and
fields that were stable before remain so. -/
theorem foldl_markFieldStep_stable (cf : List String) (r : Row) (f : String)
    (hf : f ∈ cf ∨ ∀ v, rowGet r f = some v →
      v = "" ∨ pyStartsWith v DUPLICATE_MARKER_PREFIX = true) :
    ∀ v, rowGet (cf.foldl markFieldStep r) f = some v →
      v = "" ∨ pyStartsWith v DUPLICATE_MARKER_PREFIX = true := by
  induction cf generalizing r with
  | nil =>
    rcases hf with hf | hf
    · exact absurd hf (List.not_mem_nil f)
    · exact hf
  | cons c cs ih =>
    rw [List.foldl_cons]
    apply ih
    rcases hf with hf | hf
    · rcases List.mem_cons.mp hf with hf | hf
      · subst hf
        exact Or.inr (fun v h => markFieldStep_stable_self r f v h)
      · exact Or.inl hf
    · exact Or.inr (markFieldStep_stable r c f (fun _ => hf))

/-- A marker step on an already-stable field changes nothing. -/
theorem markFieldStep_of_stable (r : Row) (f : String)
    (h : ∀ v, rowGet r f = some v →
      v = "" ∨ pyStartsWith v DUPLICATE_MARKER_PREFIX = true) :
    markFieldStep r f = r := by
  cases hget : rowGet r f with
  | none => simp only [markFieldStep, hget]
  | some u =>
    simp only [markFieldStep, hget]
    rcases h u hget with hu | hu
    · rw [if_pos hu]
    · by_cases hu0 : u = ""
      · rw [if_pos hu0]
      · rw [if_neg hu0, if_pos hu]

/-- The whole marker loop on a row all of whose check fields are stable
changes nothing. -/
theorem foldl_markFieldStep_of_stable (cf : List String) (r : Row)
    (h : ∀ f ∈ cf, ∀ v, rowGet r f = some v →
      v = "" ∨ pyStartsWith v DUPLICATE_MARKER_PREFIX = true) :
    cf.foldl markFieldStep r = r := by
  induction cf with
  | nil => rfl
  | cons c cs ih =>
    rw [List.foldl_cons, markFieldStep_of_stable r c (h c (List.mem_cons_self c cs)),
      ih (fun f hf => h f (List.mem_cons_of_mem c hf))]

theorem rowGet_markFlagStep_other (m : Row) (g : String)
    (hg : g ≠ "Duplicate_Flag") : rowGet (markFlagStep m) g = rowGet m g := by
  unfold markFlagStep
  split
  · rfl
  · rw [rowGet_rowSet_other _ _ _ _ hg]

theorem rowGet_markDateStep_other (d : String) (m : Row) (g : String)
    (hg : g ≠ "Duplicate_Detected_Date") :
    rowGet (markDateStep d m) g = rowGet m g := by
  unfold markDateStep
  split
  · rfl
  · rw [rowGet_rowSet_other _ _ _ _ hg]

theorem markFlagStep_isSome (m : Row) :
    (rowGet (markFlagStep m) "Duplicate_Flag").isSome := by
  unfold markFlagStep
  split
  · assumption
  · rw [rowGet_rowSet_self]; rfl

theorem markDateStep_isSome (d : String) (m : Row) :
    (rowGet (markDateStep d m) "Duplicate_Detected_Date").isSome := by
  unfold markDateStep
  split
  · assumption
  · rw [rowGet_rowSet_self]; rfl

/-- C10: mark_as_duplicate is idempotent whenever the configured check
fields do not include the bookkeeping fields it adds (the shipped
configuration checks Document ID and Source URL only): marking a row twice
equals marking it once, the marker prefix is never doubled, and the flag
and date fields are only added when absent. -/
theorem mark_as_duplicate_idempotent (cf : List String) (d1 d2 : String) (r : Row)
    (hF : "Duplicate_Flag" ∉ cf) (hD : "Duplicate_Detected_Date" ∉ cf) :
    mark_as_duplicate cf d2 (mark_as_duplicate cf d1 r) = mark_as_duplicate cf d1 r := by
  unfold mark_as_duplicate
  have hstable : ∀ f ∈ cf, ∀ v,
      rowGet (markDateStep d1 (markFlagStep (cf.foldl markFieldStep r))) f = some v →
      v = "" ∨ pyStartsWith v DUPLICATE_MARKER_PREFIX = true := by
    intro f hf v hv
    rw [rowGet_markDateStep_other _ _ _ (fun e => hD (e ▸ hf)),
      rowGet_markFlagStep_other _ _ (fun e => hF (e ▸ hf))] at hv
    exact foldl_markFieldStep_stable cf r f (Or.inl hf) v hv
  rw [foldl_markFieldStep_of_stable cf _ hstable]
  have hflag : (rowGet (markDateStep d1 (markFlagStep (cf.foldl markFieldStep r)))
      "Duplicate_Flag").isSome := by
    rw [rowGet_markDateStep_other _ _ _ (by decide)]
    exact markFlagStep_isSome _
  have hdate : (rowGet (markDateStep d1 (markFlagStep (cf.foldl markFieldStep r)))
      "Duplicate_Detected_Date").isSome := markDateStep_isSome _ _
  rw [markFlagStep, if_pos hflag, markDateStep, if_pos hdate]

/-- Witness for the idempotence of mark_as_duplicate at the shipped
configuration on a concrete row. -/
theorem mark_as_duplicate_idempotent_witness :
    mark_as_duplicate DUPLICATE_CHECK_FIELDS "2025-02-02 00:00:00"
        (mark_as_duplicate DUPLICATE_CHECK_FIELDS "2025-01-01 00:00:00"
          [("Document ID", "d1"), ("Source URL", "http_u")]) =
      mark_as_duplicate DUPLICATE_CHECK_FIELDS "2025-01-01 00:00:00"
        [("Document ID", "d1"), ("Source URL", "http_u")] :=
  mark_as_duplicate_idempotent DUPLICATE_CHECK_FIELDS _ _ _ (by decide) (by decide)

/-! ## Perceptual image grouping -/

/-- The inner scan only ever adds files that match the seed itself. -/
theorem collectSimilar_shape (thr : Nat) (seed : FileRec) :
    ∀ (l : List FileRec) (sim : List FileRec) (proc : List String),
      ∃ add, (collectSimilar thr seed l (sim, proc)).1 = sim ++ add ∧
        ∀ e ∈ add, perceptualMatches thr seed.hashes e.hashes = true := by
  intro l
  induction l with
  | nil => exact fun sim proc => ⟨[], by simp [collectSimilar]⟩
  | cons e rest ih =>
    intro sim proc
    by_cases h1 : e.id = seed.id ∨ e.id ∈ proc
    · have he : collectSimilar thr seed (e :: rest) (sim, proc) =
          collectSimilar thr seed rest (sim, proc) := by
        simp only [collectSimilar]
        rw [if_pos h1]
      rw [he]
      exact ih sim proc
    · by_cases h2 : perceptualMatches thr seed.hashes e.hashes = true
      · have he : collectSimilar thr seed (e :: rest) (sim, proc) =
            collectSimilar thr seed rest (sim ++ [e], proc ++ [e.id]) := by
          simp only [collectSimilar]
          rw [if_neg h1, if_pos h2]
        obtain ⟨add, hadd, hm⟩ := ih (sim ++ [e]) (proc ++ [e.id])
        refine ⟨e :: add, ?_, ?_⟩
        · rw [he, hadd, List.append_assoc]
          rfl
        · intro x hx
          rcases List.mem_cons.mp hx with hx | hx
          · exact hx ▸ h2
          · exact hm x hx
      · have he : collectSimilar thr seed (e :: rest) (sim, proc) =
            collectSimilar thr seed rest (sim, proc) := by
          simp only [collectSimilar]
          rw [if_neg h1, if_neg h2]
        rw [he]
        exact ih sim proc

/-- Every group the perceptual loop emits is seed-centred: its member list
is a seed followed by at least one other file, each matching the seed. -/
theorem perceptualLoop_seed_centred (thr : Nat) (entries : List FileRec) :
    ∀ (l : List FileRec) (proc : List String) (p : String × DupGroup),
      p ∈ perceptualLoop thr entries l proc →
      ∃ seed rest, p.2.files = seed :: rest ∧ rest ≠ [] ∧
        (∀ e ∈ rest, perceptualMatches thr seed.hashes e.hashes = true) ∧
        p.2.duplicate_count = p.2.files.length ∧
        p.2.confidence = "high" ∧ p.2.gtype = "perceptual_image" := by
  intro l
  induction l with
  | nil => intro proc p hp; simp [perceptualLoop] at hp
  | cons e rest ih =>
    intro proc p hp
    by_cases h1 : e.id ∈ proc
    · have he : perceptualLoop thr entries (e :: rest) proc =
          perceptualLoop thr entries rest proc := by
        simp only [perceptualLoop]
        rw [if_pos h1]
      exact ih proc p (he ▸ hp)
    · simp only [perceptualLoop] at hp
      rw [if_neg h1] at hp
      obtain ⟨add, hadd, hm⟩ := collectSimilar_shape thr e entries [e] proc
      by_cases h2 : (collectSimilar thr e entries ([e], proc)).1.length > 1
      · rw [if_pos h2] at hp
        rcases List.mem_cons.mp hp with hp | hp
        · refine ⟨e, add, ?_, ?_, hm, ?_, ?_, ?_⟩
          · rw [hp]
            simpa [mkPerceptualGroup] using hadd
          · intro hnil
            rw [hadd, hnil] at h2
            simp at h2
          · rw [hp]
            rfl
          · rw [hp]
            rfl
          · rw [hp]
            rfl
        · exact ih _ p hp
      · rw [if_neg h2] at hp
        exact ih _ p hp

/-- C4 (amended): within one perceptual-image pass, matching groups around
a seed: each emitted group is a seed together with at least one other
record, every one of which matches the seed (average Hamming distance over
the common hash algorithms at most the threshold); a record matching only
another member but not the seed is not pulled into the group, so matching
is not closed transitively. -/
theorem find_perceptual_groups_seed_centred (thr : Nat) (entries : List FileRec) :
    ∀ p ∈ find_perceptual_image_duplicates thr entries,
      ∃ seed rest, p.2.files = seed :: rest ∧ rest ≠ [] ∧
        (∀ e ∈ rest, perceptualMatches thr seed.hashes e.hashes = true) ∧
        p.2.duplicate_count = p.2.files.length ∧
        p.2.confidence = "high" ∧ p.2.gtype = "perceptual_image" :=
  fun p hp => perceptualLoop_seed_centred thr entries entries [] p hp

/-- Witness: the seed-centred description applies to the one group found on
the chain a, b, c. -/
theorem find_perceptual_groups_seed_centred_witness :
    ∃ seed rest, (mkPerceptualGroup [imgA, imgB]).files = seed :: rest ∧ rest ≠ [] ∧
      (∀ e ∈ rest, perceptualMatches 1 seed.hashes e.hashes = true) ∧
      (mkPerceptualGroup [imgA, imgB]).duplicate_count =
        (mkPerceptualGroup [imgA, imgB]).files.length ∧
      (mkPerceptualGroup [imgA, imgB]).confidence = "high" ∧
      (mkPerceptualGroup [imgA, imgB]).gtype = "perceptual_image" :=
  find_perceptual_groups_seed_centred 1 [imgA, imgB, imgC]
    ("perceptual_a", mkPerceptualGroup [imgA, imgB]) (by decide)

/-- C4 counterexample: with threshold 1, a matches b and b matches c, yet
the pass puts only a and b into a group and c into none, so a, b and c do
not end up in a single group: grouping is not transitive. -/
theorem perceptual_transitivity_counterexample :
    perceptualMatches 1 imgA.hashes imgB.hashes = true
      ∧ perceptualMatches 1 imgB.hashes imgC.hashes = true
      ∧ (find_perceptual_image_duplicates 1 [imgA, imgB, imgC]).map
          (fun p => p.2.files.map FileRec.id) = [["a", "b"]]
      ∧ ((find_perceptual_image_duplicates 1 [imgA, imgB, imgC]).all
          (fun p => !((p.2.files.map FileRec.id).contains "c"))) = true := by
  refine ⟨by decide, by decide, by decide, by decide⟩

/-! ## Detection statistics and failure policy -/

/-- C7: the reported total duplicate count is the plain sum of the member
counts of all duplicate groups; as every handler sets duplicate_count to
the length of its member list, the statistic equals the length of the
concatenation of all member lists, which counts a record once per group it
belongs to, with no deduplication across overlapping groups. -/
theorem total_duplicates_found_eq_sum_members
    (gs : List (String × DupGroup))
    (h : ∀ p ∈ gs, p.2.duplicate_count = p.2.files.length) :
    total_duplicates_found gs = (gs.map (fun p => p.2.files.length)).sum
      ∧ total_duplicates_found gs =
        ((gs.map (fun p => p.2.files)).flatten).length := by
  have h1 : total_duplicates_found gs = (gs.map (fun p => p.2.files.length)).sum := by
    induction gs with
    | nil => rfl
    | cons g rest ih =>
      have ih2 := ih (fun p hp => h p (List.mem_cons_of_mem g hp))
      simp only [total_duplicates_found, List.map_cons, List.sum_cons] at ih2 ⊢
      rw [h g (List.mem_cons_self g rest), ih2]
  refine ⟨h1, ?_⟩
  rw [h1, List.length_flatten, List.map_map]
  rfl

/-- Witness for the statistics sum on two groups that share the member
imgB: the statistic is 4 even though only 3 distinct records occur. -/
theorem total_duplicates_found_witness :
    total_duplicates_found [("g1", g1Overlap), ("g2", g2Overlap)] =
        ([("g1", g1Overlap), ("g2", g2Overlap)].map
          (fun p => p.2.files.length)).sum
      ∧ total_duplicates_found [("g1", g1Overlap), ("g2", g2Overlap)] =
        (([("g1", g1Overlap), ("g2", g2Overlap)].map
          (fun p => p.2.files)).flatten).length :=
  total_duplicates_found_eq_sum_members _ (by decide)

/-- C8: a raising category handler is skipped and contributes nothing while
the remaining categories are still merged into a returned result, and a
raising strategy inside the multi loop is skipped with the scan continuing
over the remaining strategies: a strategy-level failure never aborts the
run. -/
theorem strategy_failures_skipped :
    (∀ (pre post : List (String × Except String (List (String × DupGroup))))
        (cat e : String),
        runCategoryHandlers (pre ++ (cat, Except.error e) :: post) =
          runCategoryHandlers (pre ++ post))
    ∧ (∀ (pre post : List StrategyE) (s : StrategyE) (r : Row) (c : List Row)
        (e : String), s r c = Except.error e →
        multiStrategyLoop (pre ++ s :: post) r c =
          multiStrategyLoop (pre ++ post) r c) := by
  constructor
  · intro pre post cat e
    induction pre with
    | nil => rfl
    | cons q rest ih =>
      rcases q with ⟨c2, exc⟩
      cases exc <;> simp [runCategoryHandlers, ih]
  · intro pre post s r c e hs
    induction pre with
    | nil =>
      simp only [List.nil_append, multiStrategyLoop, hs]
    | cons q rest ih =>
      simp only [List.cons_append, multiStrategyLoop]
      cases hq : q r c with
      | error err => exact ih
      | ok v =>
        rcases v with ⟨b, i⟩
        cases b
        · exact ih
        · rfl

/-- Witness for the failure policy: a strategy that raises, placed in front
of the real strategy list, leaves the multi scan's verdict unchanged. -/
theorem strategy_failures_skipped_witness :
    multiStrategyLoop ([] ++ (fun _ _ => Except.error "boom") :: multiStrategies defaultCfg)
        c1NewRow c1Corpus =
      multiStrategyLoop ([] ++ multiStrategies defaultCfg) c1NewRow c1Corpus :=
  strategy_failures_skipped.2 [] (multiStrategies defaultCfg) _ _ _ "boom" rfl

/-! ## Ranking -/

theorem confidence_scores_high : confidence_scores "high" = 3 := rfl

theorem confidence_scores_medium : confidence_scores "medium" = 2 := rfl

theorem confidence_scores_low : confidence_scores "low" = 1 := rfl

/-- Inserting an entry into a list moves past exactly the strictly higher
scores, so the members of any one score class keep their relative order. -/
theorem filter_orderedInsert_scoreClass (s : Rat) (x : RankedEntry)
    (l : List RankedEntry) :
    (List.orderedInsert rankRel x l).filter (fun e => e.score == s) =
      if x.score == s then x :: l.filter (fun e => e.score == s)
      else l.filter (fun e => e.score == s) := by
  induction l with
  | nil => by_cases hx : x.score == s <;> simp [List.orderedInsert, hx]
  | cons y ys ih =>
    by_cases hr : rankRel x y
    · rw [List.orderedInsert_of_le _ _ hr]
      by_cases hx : x.score == s <;> simp [List.filter_cons, hx]
    · simp only [List.orderedInsert, if_neg hr, List.filter_cons]
      by_cases hx : x.score == s
      · have hxs : x.score = s := by simpa using hx
        have hlt : x.score < y.score := not_le.mp hr
        have hy : (y.score == s) = false := by
          simp only [beq_eq_false_iff_ne, ne_eq]
          intro hys
          rw [hys, ← hxs] at hlt
          exact lt_irrefl _ hlt
        simp [hy, ih, hx]
      · by_cases hy : y.score == s <;> simp [hy, ih, hx]

/-- Stability of the ranking sort: each score class comes out in discovery
order. -/
theorem filter_insertionSort_scoreClass (s : Rat) (l : List RankedEntry) :
    (List.insertionSort rankRel l).filter (fun e => e.score == s) =
      l.filter (fun e => e.score == s) := by
  induction l with
  | nil => rfl
  | cons x xs ih =>
    simp only [List.insertionSort]
    rw [filter_orderedInsert_scoreClass]
    by_cases hx : x.score == s <;> simp [List.filter_cons, hx, ih]

/-- C5 (amended): the ranking assigns each group the composite score
confidenceWeight * 100 + min(savings, 1000) + count * 10 with weights
high 3, medium 2, low 1, and returns the groups sorted by score descending
with ties keeping discovery order (a stable sort of the entries built in
discovery order); a high-confidence group with 0 MB savings outranks a
low-confidence group with 50 MB savings provided the low group's duplicate
count exceeds the high group's by at most 14 (in particular at equal
counts). -/
theorem rank_duplicate_groups_spec (gs : List (String × DupGroup)) :
    (∀ e ∈ rank_duplicate_groups gs,
        e.score = (confidence_scores e.confidence : Rat) * 100
          + min e.potential_savings_mb 1000 + (e.duplicate_count : Rat) * 10)
      ∧ (rank_duplicate_groups gs).Sorted rankRel
      ∧ (rank_duplicate_groups gs).Perm (gs.map mkRankedEntry)
      ∧ (∀ s : Rat, (rank_duplicate_groups gs).filter (fun e => e.score == s) =
          (gs.map mkRankedEntry).filter (fun e => e.score == s))
      ∧ (∀ g1 g2 : DupGroup, g1.confidence = "high" → g1.potential_savings_mb = 0 →
          g2.confidence = "low" → g2.potential_savings_mb = 50 →
          g2.duplicate_count ≤ g1.duplicate_count + 14 →
          rankScore g2 < rankScore g1) := by
  refine ⟨?_, ?_, ?_, ?_, ?_⟩
  · intro e he
    rw [rank_duplicate_groups, List.mem_insertionSort] at he
    obtain ⟨p, _, hp⟩ := List.mem_map.mp he
    subst hp
    rfl
  · exact List.sorted_insertionSort rankRel _
  · exact List.perm_insertionSort rankRel _
  · exact fun s => filter_insertionSort_scoreClass s _
  · intro g1 g2 h1c h1s h2c h2s hcount
    have hc : (g2.duplicate_count : Rat) ≤ (g1.duplicate_count : Rat) + 14 := by
      exact_mod_cast hcount
    simp only [rankScore, h1c, h1s, h2c, h2s, confidence_scores_high,
      confidence_scores_low]
    norm_num [min_def]
    linarith

/-- Witness for the ranking description: at equal duplicate counts a
high-confidence group with no savings outscores a low-confidence group
with 50 MB of savings. -/
theorem rank_duplicate_groups_spec_witness :
    rankScore gLowSmall < rankScore gHigh :=
  (rank_duplicate_groups_spec []).2.2.2.2 gHigh gLowSmall rfl rfl rfl rfl
    (by decide)

/-- C5 counterexample: a high-confidence group with 0 MB savings and 2
duplicates is ranked below a low-confidence group with 50 MB savings and
18 duplicates (scores 320 versus 330), so the high group does not always
rank above the low one. -/
theorem rank_high_above_low_counterexample :
    gHigh.confidence = "high" ∧ gHigh.potential_savings_mb = 0
      ∧ gLow.confidence = "low" ∧ gLow.potential_savings_mb = 50
      ∧ (rank_duplicate_groups [("g_high", gHigh), ("g_low", gLow)]).map
          RankedEntry.group_id = ["g_low", "g_high"] := by
  refine ⟨rfl, rfl, rfl, rfl, ?_⟩
  norm_num [rank_duplicate_groups, List.insertionSort, List.orderedInsert,
    mkRankedEntry, rankScore, rankRel, gHigh, gLow, confidence_scores_high,
    confidence_scores_low, min_def]

/-! ## Registry counter accounting -/

/-- get_current_sheet changes the registry only by possibly appending one
fresh sheet whose counter holds exactly its header row: the total of the
counters and the sheet count move together. -/
theorem get_current_sheet_sum (maxRows : Nat) (st : ASState) :
    sumRowsUsed (get_current_sheet maxRows st).1.sheets + st.sheets.length =
      sumRowsUsed st.sheets + (get_current_sheet maxRows st).1.sheets.length := by
  by_cases h1 : st.sheets.isEmpty = true
  · simp only [get_current_sheet, if_pos h1]
    simp only [create_new_sheet, sumRowsUsed, List.map_append, List.sum_append,
      List.length_append]
    simp
    omega
  · by_cases h2 : (st.sheets.getD st.current_sheet_index
        { rows_used := 0, max_rows := 0 }).rows_used ≥
        (st.sheets.getD st.current_sheet_index
          { rows_used := 0, max_rows := 0 }).max_rows
    · simp only [get_current_sheet, if_neg h1, if_pos h2]
      simp only [create_new_sheet, sumRowsUsed, List.map_append, List.sum_append,
        List.length_append]
      simp
      omega
    · simp only [get_current_sheet, if_neg h1, if_neg h2]

/-- The sheet index get_current_sheet hands to the writer is in bounds. -/
theorem get_current_sheet_idx_lt (maxRows : Nat) (st : ASState) :
    (get_current_sheet maxRows st).2 < (get_current_sheet maxRows st).1.sheets.length := by
  by_cases h1 : st.sheets.isEmpty = true
  · simp only [get_current_sheet, if_pos h1]
    simp only [create_new_sheet]
    rw [List.isEmpty_iff.mp h1]
    simp
  · by_cases h2 : (st.sheets.getD st.current_sheet_index
        { rows_used := 0, max_rows := 0 }).rows_used ≥
        (st.sheets.getD st.current_sheet_index
          { rows_used := 0, max_rows := 0 }).max_rows
    · simp only [get_current_sheet, if_neg h1, if_pos h2]
      simp [create_new_sheet]
    · simp only [get_current_sheet, if_neg h1, if_neg h2]
      by_contra hge
      push_neg at hge
      rw [List.getD_eq_default _ _ hge] at h2
      exact h2 (le_refl 0)

/-- A successful write increments exactly the target counter by the rows
written. -/
theorem sumRowsUsed_asAddRows (sheets : List ASheet) (idx n : Nat)
    (h : idx < sheets.length) :
    sumRowsUsed (asAddRows sheets idx n) = sumRowsUsed sheets + n := by
  induction sheets generalizing idx with
  | nil => simp at h
  | cons s rest ih =>
    cases idx with
    | zero =>
      simp [asAddRows, sumRowsUsed]
      omega
    | succ i =>
      have hi : i < rest.length := by simpa using h
      have := ih i hi
      simp only [asAddRows, sumRowsUsed] at this ⊢
      simp only [List.set_cons_succ, List.getD_cons_succ, List.map_cons,
        List.sum_cons]
      omega

/-- One chunk step: counters plus headers grow by exactly the rows written
(the reported amount), and nothing is incremented on failure. -/
theorem asStep_sum (maxRows : Nat) (wOk : Nat → Bool) (i : Nat) (st : ASState)
    (c : List Row) :
    sumRowsUsed (asStep maxRows wOk i st c).1.sheets + st.sheets.length =
      sumRowsUsed st.sheets + (asStep maxRows wOk i st c).1.sheets.length +
        (asStep maxRows wOk i st c).2 := by
  have h1 := get_current_sheet_sum maxRows st
  have h2 := get_current_sheet_idx_lt maxRows st
  by_cases hw : wOk i = true
  · have h3 := sumRowsUsed_asAddRows (get_current_sheet maxRows st).1.sheets
      (get_current_sheet maxRows st).2 c.length h2
    simp only [asStep, hw, if_true]
    simp only [asAddRows, List.length_set] at h3 ⊢
    omega
  · simp only [asStep, hw, Bool.false_eq_true, if_false]
    omega

theorem asStep_reported (maxRows : Nat) (wOk : Nat → Bool) (i : Nat)
    (st : ASState) (c : List Row) :
    (asStep maxRows wOk i st c).2 = if wOk i then c.length else 0 := by
  by_cases hw : wOk i = true <;> simp [asStep, hw]

/-- Accounting over the whole chunk loop. -/
theorem asProcessChunks_spec (maxRows : Nat) (wOk : Nat → Bool) :
    ∀ (cs : List (List Row)) (i : Nat) (st : ASState),
      sumRowsUsed (asProcessChunks maxRows wOk cs i st).1.sheets + st.sheets.length =
        sumRowsUsed st.sheets + (asProcessChunks maxRows wOk cs i st).1.sheets.length +
          (asProcessChunks maxRows wOk cs i st).2
      ∧ (asProcessChunks maxRows wOk cs i st).2 = successfulRows wOk cs i := by
  intro cs
  induction cs with
  | nil => exact fun i st => ⟨by simp [asProcessChunks], rfl⟩
  | cons c cs ih =>
    intro i st
    have hs := asStep_sum maxRows wOk i st c
    have hr := asStep_reported maxRows wOk i st c
    have hih := ih (i + 1) (asStep maxRows wOk i st c).1
    have he : asProcessChunks maxRows wOk (c :: cs) i st =
        ((asProcessChunks maxRows wOk cs (i + 1) (asStep maxRows wOk i st c).1).1,
          (asStep maxRows wOk i st c).2 +
            (asProcessChunks maxRows wOk cs (i + 1) (asStep maxRows wOk i st c).1).2) := rfl
    rw [he]
    dsimp only
    refine ⟨?_, ?_⟩
    · have h1 := hih.1
      omega
    · simp only [successfulRows, hih.2, hr]

/-- C3: over one batch append, each successful chunk write increments the
target partition's rows_used counter by exactly the rows written and a
failed write increments no counter (so retries are safe): the total of the
registry counters grows by exactly the sum of the successful chunk sizes
(each newly created sheet accounting for exactly its one header row), the
reported rows_added equals that sum, and per step a failed write leaves the
registry exactly as get_current_sheet left it while a successful one only
adds the chunk length to the target sheet. -/
theorem add_file_data_counter_exact (maxRows : Nat) (wOk : Nat → Bool)
    (st : ASState) (records : List Row) (batch_size : Nat)
    (_hbs : 0 < batch_size) :
    (sumRowsUsed (add_file_data maxRows wOk st records batch_size).1.sheets
        + st.sheets.length =
      sumRowsUsed st.sheets
        + (add_file_data maxRows wOk st records batch_size).1.sheets.length
        + (add_file_data maxRows wOk st records batch_size).2)
      ∧ (add_file_data maxRows wOk st records batch_size).2 =
        successfulRows wOk (chunksOf batch_size records) 0
      ∧ (∀ (i : Nat) (c : List Row) (s2 : ASState), wOk i = false →
          (asStep maxRows wOk i s2 c).1.sheets =
            (get_current_sheet maxRows s2).1.sheets)
      ∧ (∀ (i : Nat) (c : List Row) (s2 : ASState), wOk i = true →
          (asStep maxRows wOk i s2 c).1.sheets =
            asAddRows (get_current_sheet maxRows s2).1.sheets
              (get_current_sheet maxRows s2).2 c.length) := by
  have h := asProcessChunks_spec maxRows wOk (chunksOf batch_size records) 0 st
  refine ⟨?_, ?_, ?_, ?_⟩
  · exact h.1
  · exact h.2
  · intro i c s2 hw
    simp [asStep, hw]
  · intro i c s2 hw
    simp [asStep, hw]

/-- Witness for the counter accounting: five records in chunks of two where
the second write fails; 3 of 5 rows are recorded, matching the counters. -/
theorem add_file_data_counter_exact_witness :
    (sumRowsUsed (add_file_data 3 (fun i => i != 1) { sheets := [], current_sheet_index := 0, total_rows_used := 0 }
          (List.replicate 5 [("Document ID", "d")]) 2).1.sheets
        + ({ sheets := [], current_sheet_index := 0, total_rows_used := 0 } : ASState).sheets.length =
      sumRowsUsed ({ sheets := [], current_sheet_index := 0, total_rows_used := 0 } : ASState).sheets
        + (add_file_data 3 (fun i => i != 1) { sheets := [], current_sheet_index := 0, total_rows_used := 0 }
            (List.replicate 5 [("Document ID", "d")]) 2).1.sheets.length
        + (add_file_data 3 (fun i => i != 1) { sheets := [], current_sheet_index := 0, total_rows_used := 0 }
            (List.replicate 5 [("Document ID", "d")]) 2).2)
      ∧ (add_file_data 3 (fun i => i != 1) { sheets := [], current_sheet_index := 0, total_rows_used := 0 }
            (List.replicate 5 [("Document ID", "d")]) 2).2 =
        successfulRows (fun i => i != 1)
          (chunksOf 2 (List.replicate 5 [("Document ID", "d")])) 0
      ∧ (∀ (i : Nat) (c : List Row) (s2 : ASState), (fun i => i != 1) i = false →
          (asStep 3 (fun i => i != 1) i s2 c).1.sheets =
            (get_current_sheet 3 s2).1.sheets)
      ∧ (∀ (i : Nat) (c : List Row) (s2 : ASState), (fun i => i != 1) i = true →
          (asStep 3 (fun i => i != 1) i s2 c).1.sheets =
            asAddRows (get_current_sheet 3 s2).1.sheets
              (get_current_sheet 3 s2).2 c.length) :=
  add_file_data_counter_exact 3 (fun i => i != 1)
    { sheets := [], current_sheet_index := 0, total_rows_used := 0 }
    (List.replicate 5 [("Document ID", "d")]) 2 (by decide)

/-! ## Partition overflow in the batch append -/

theorem chunksOfFuel_nil {α : Type} (fuel n : Nat) :
    chunksOfFuel fuel n ([] : List α) = [] := by
  cases fuel <;> simp [chunksOfFuel]

theorem chunksOf_of_le {α : Type} (n : Nat) (l : List α) (hne : l ≠ [])
    (hle : l.length ≤ n) : chunksOf n l = [l] := by
  unfold chunksOf
  cases l with
  | nil => exact absurd rfl hne
  | cons c rest =>
    simp only [List.length_cons, chunksOfFuel]
    rw [List.take_of_length_le (by simpa using hle),
      List.drop_eq_nil_of_le (by simpa using hle), chunksOfFuel_nil]

theorem wsWrite_nil_one (data : List WsRow) : wsWrite [] 1 data = data := by
  simp [wsWrite]

theorem wsWrite_single_two (h : WsRow) (data : List WsRow) :
    wsWrite [h] 2 data = h :: data := by
  simp only [wsWrite]
  rw [List.drop_eq_nil_of_le (by simp)]
  simp

/-- The exact outcome of one overflowing single-chunk append starting from
one empty worksheet: the first N records land in the active worksheet, and
the remainder goes to a freshly created worksheet behind a header row. -/
theorem add_batch_data_overflow_eq (N K chunk_size maxSheets : Nat) (headers : WsRow)
    (wOk : Nat → Bool) (records : List WsRow)
    (hN : 0 < N) (hK : 0 < K)
    (hlen : records.length = N + K)
    (hchunk : N + K ≤ chunk_size)
    (hms : 1 < maxSheets)
    (hdata : ∀ r ∈ records, rowHasData r = true)
    (hheaders : rowHasData headers = true)
    (hw0 : wOk 0 = true) (hw1 : wOk 1 = true) :
    add_batch_data { maxRows := N, maxSheets := maxSheets, headers := headers, wOk := wOk }
        { sheets := [[]], cur := 0, wctr := 0 } records chunk_size =
      ({ sheets := [records.take N, headers :: records.drop N], cur := 1, wctr := 2 },
       { total_rows := records.length, successful_rows := N + K, failed_rows := 0 }) := by
  have hne : records ≠ [] := by
    intro h
    rw [h] at hlen
    simp at hlen
    omega
  have hchunks : chunksOf chunk_size records = [records] :=
    chunksOf_of_le _ _ hne (by omega)
  have hgd0 : (([[]] : List Ws).getD 0 []) = [] := rfl
  have hrc_nil : get_sheet_row_count ([] : Ws) = 0 := rfl
  have hfits_len : (records.take N).length = N := by
    rw [List.length_take]
    omega
  have hrest_len : (records.drop N).length = K := by
    rw [List.length_drop]
    omega
  have hrc_fits : get_sheet_row_count (records.take N) = N := by
    rw [get_sheet_row_count, List.countP_eq_length.mpr, hfits_len]
    intro a ha
    exact hdata a (List.take_subset N records ha)
  have hrc_rest : (records.drop N).countP rowHasData = K := by
    rw [List.countP_eq_length.mpr, hrest_len]
    intro a ha
    exact hdata a (List.drop_subset N records ha)
  have hful_nil : is_sheet_full N ([] : Ws) = false := by
    simp only [is_sheet_full, get_sheet_row_count, List.countP_nil, ge_iff_le,
      decide_eq_false_iff_not, not_le]
    exact hN
  have hful_fits : is_sheet_full N (records.take N) = true := by
    rw [is_sheet_full, hrc_fits]
    simp
  have hA : msGetOrCreate
      { maxRows := N, maxSheets := maxSheets, headers := headers, wOk := wOk }
      { sheets := [[]], cur := 0, wctr := 0 } =
      { sheets := [[]], cur := 0, wctr := 0 } := by
    simp only [msGetOrCreate]
    rw [if_neg (show ¬ (([[]] : List Ws).length ≥ maxSheets) by
      simp only [List.length_cons, List.length_nil]
      omega)]
    simp only [find_available_sheet, List.findIdx?_cons, hful_nil]
    rfl
  rw [add_batch_data, hchunks]
  simp only [List.foldl_cons, List.foldl_nil]
  have hrcH : get_sheet_row_count [headers] = 1 := by
    simp [get_sheet_row_count, List.countP_cons_of_pos, hheaders]
  have hL1 : batch_update_sheet
      { maxRows := N, maxSheets := maxSheets, headers := headers, wOk := wOk }
      { sheets := [[]], cur := 0, wctr := 0 } (records.take N) =
      ({ sheets := [records.take N], cur := 0, wctr := 1 }, true) := by
    simp only [batch_update_sheet, hgd0, hrc_nil]
    rw [if_pos hw0]
    rw [wsWrite_nil_one]
    rfl
  have hL2 : msRollToAvailable
      { maxRows := N, maxSheets := maxSheets, headers := headers, wOk := wOk }
      { sheets := [records.take N], cur := 0, wctr := 1 } =
      { sheets := [records.take N, [headers]], cur := 1, wctr := 1 } := by
    have hfind : (List.findIdx? (fun ws => !is_sheet_full N ws) [records.take N]) = none := by
      simp [List.findIdx?_cons, hful_fits]
    have hgd1 : ([records.take N, ([] : Ws)].getD 1 ([] : Ws)) = [] := rfl
    simp only [msRollToAvailable, find_available_sheet, hfind]
    simp only [List.length_cons, List.length_nil, List.cons_append, List.nil_append]
    simp only [hgd1, hrc_nil, setup_sheet_headers]
    rw [wsWrite_nil_one]
    simp [List.set]
  have hL3 : batch_update_sheet
      { maxRows := N, maxSheets := maxSheets, headers := headers, wOk := wOk }
      { sheets := [records.take N, [headers]], cur := 1, wctr := 1 }
      (records.drop N) =
      ({ sheets := [records.take N, headers :: records.drop N], cur := 1, wctr := 2 },
        true) := by
    simp only [batch_update_sheet]
    rw [if_pos hw1]
    have hgd1 : ([records.take N, [headers]].getD 1 ([] : Ws)) = [headers] := rfl
    rw [hgd1, hrcH, wsWrite_single_two]
    rfl
  simp only [msProcessChunk, hA]
  simp only [hgd0, hrc_nil, Nat.zero_add, Nat.sub_zero]
  rw [if_pos (show records.length > N by omega)]
  rw [if_pos hN]
  rw [if_neg (show ¬ ((List.drop N records).isEmpty = true) by
    rw [List.isEmpty_iff]
    intro h
    rw [h] at hrest_len
    simp at hrest_len
    omega)]
  simp only [hL1, hL2, hL3, tally, hfits_len, hrest_len]
  simp

/-- C2 (amended): for every ceiling N and batch of N + K records (K > 0)
appended in one call whose chunk size covers the batch, starting from an
empty partition, the append produces exactly 2 partitions: a chunk that
would overflow the active partition is split, the fitting N rows are
written there, and the remaining K records go to a newly obtained writable
partition, which, being empty, first receives a header row, so the second
partition's row count is K + 1, not K. -/
theorem append_overflow_split (N K chunk_size maxSheets : Nat) (headers : WsRow)
    (wOk : Nat → Bool) (records : List WsRow)
    (hN : 0 < N) (hK : 0 < K)
    (hlen : records.length = N + K)
    (hchunk : N + K ≤ chunk_size)
    (hms : 1 < maxSheets)
    (hdata : ∀ r ∈ records, rowHasData r = true)
    (hheaders : rowHasData headers = true)
    (hw0 : wOk 0 = true) (hw1 : wOk 1 = true) :
    (add_batch_data { maxRows := N, maxSheets := maxSheets, headers := headers, wOk := wOk }
        { sheets := [[]], cur := 0, wctr := 0 } records chunk_size).1.sheets.length = 2
      ∧ (add_batch_data { maxRows := N, maxSheets := maxSheets, headers := headers, wOk := wOk }
          { sheets := [[]], cur := 0, wctr := 0 } records chunk_size).1.sheets.map
            get_sheet_row_count = [N, K + 1]
      ∧ (add_batch_data { maxRows := N, maxSheets := maxSheets, headers := headers, wOk := wOk }
          { sheets := [[]], cur := 0, wctr := 0 } records chunk_size).2.successful_rows = N + K
      ∧ (add_batch_data { maxRows := N, maxSheets := maxSheets, headers := headers, wOk := wOk }
          { sheets := [[]], cur := 0, wctr := 0 } records chunk_size).2.failed_rows = 0 := by
  rw [add_batch_data_overflow_eq N K chunk_size maxSheets headers wOk records
    hN hK hlen hchunk hms hdata hheaders hw0 hw1]
  refine ⟨rfl, ?_, rfl, rfl⟩
  have hrc_fits : get_sheet_row_count (records.take N) = N := by
    rw [get_sheet_row_count, List.countP_eq_length.mpr, List.length_take]
    · omega
    · intro a ha
      exact hdata a (List.take_subset N records ha)
  have hrc_second : get_sheet_row_count (headers :: records.drop N) = K + 1 := by
    rw [get_sheet_row_count, List.countP_cons_of_pos _ _ hheaders,
      List.countP_eq_length.mpr, List.length_drop]
    · omega
    · intro a ha
      exact hdata a (List.drop_subset N records ha)
  simp only [List.map_cons, List.map_nil, hrc_fits, hrc_second]

/-- Witness for the overflow split at ceiling 3 with 5 records. -/
theorem append_overflow_split_witness :
    (add_batch_data { maxRows := 3, maxSheets := 10, headers := msDemoCfg.headers, wOk := msDemoCfg.wOk }
        { sheets := [[]], cur := 0, wctr := 0 } msDemoData 100).1.sheets.length = 2
      ∧ (add_batch_data { maxRows := 3, maxSheets := 10, headers := msDemoCfg.headers, wOk := msDemoCfg.wOk }
          { sheets := [[]], cur := 0, wctr := 0 } msDemoData 100).1.sheets.map
            get_sheet_row_count = [3, 2 + 1]
      ∧ (add_batch_data { maxRows := 3, maxSheets := 10, headers := msDemoCfg.headers, wOk := msDemoCfg.wOk }
          { sheets := [[]], cur := 0, wctr := 0 } msDemoData 100).2.successful_rows = 3 + 2
      ∧ (add_batch_data { maxRows := 3, maxSheets := 10, headers := msDemoCfg.headers, wOk := msDemoCfg.wOk }
          { sheets := [[]], cur := 0, wctr := 0 } msDemoData 100).2.failed_rows = 0 :=
  append_overflow_split 3 2 100 10 msDemoCfg.headers msDemoCfg.wOk msDemoData
    (by decide) (by decide) (by decide) (by decide) (by decide) (by decide)
    (by decide) (by decide) (by decide)

/-- C2 counterexample: ceiling 3, batch of 5 appended in one call from an
empty partition yields 2 partitions with row counts 3 and 3, not 3 and 2:
the second partition holds its 2 records behind a header row. -/
theorem append_overflow_counterexample :
    msDemoCfg.maxRows = 3 ∧ msDemoData.length = 3 + 2
      ∧ (add_batch_data msDemoCfg msDemoState msDemoData 100).1.sheets.map
          get_sheet_row_count = [3, 3]
      ∧ (add_batch_data msDemoCfg msDemoState msDemoData 100).1.sheets.map
          get_sheet_row_count ≠ [3, 2]
      ∧ (add_batch_data msDemoCfg msDemoState msDemoData 100).2.successful_rows = 5 := by
  refine ⟨rfl, by decide, by decide, by decide, by decide⟩

/-- C1 counterexample: on this input the code returns the title-similarity
match although the content-hash strategy also matches positively, so the
claimed priority order (content-hash in the tier before title-similarity)
does not describe check_for_duplicate: the scan in the claimed order
returns a content_hash match and differs from the code. -/
theorem check_multi_order_counterexample :
    (check_for_duplicate defaultCfg "multi" c1NewRow (some c1Corpus)).2.map
        MatchInfo.match_type = some "title_similarity"
      ∧ (content_hash_match c1NewRow c1Corpus).1 = true
      ∧ (spec_claimed_multi defaultCfg c1NewRow c1Corpus).2.map
        MatchInfo.match_type = some "content_hash"
      ∧ check_for_duplicate defaultCfg "multi" c1NewRow (some c1Corpus) ≠
        spec_claimed_multi defaultCfg c1NewRow c1Corpus := by
  refine ⟨by decide, by decide, by decide, by decide⟩

end KJJ
